import Mathlib

/-!
Verification development for the redisfs filesystem core (src/redisfs.c,
src/pathutil.c).

The backing redis store is modelled as:
  * one `Option Str` value per (inode, attribute) pair -- the keys
    `PREFIX:INODE:i:A`; the key space is addressed structurally, the textual
    prefix codec being injective for a fixed prefix;
  * one `List Int` per inode -- the directory entry set `PREFIX:DIRENT:i`
    (redis sets are unordered; members are written with `%d` and read back
    with `atoi`, so we address them as integers; the list order stands for
    the unspecified order in which SMEMBERS returns members, SADD appending
    new members at the end);
  * the global counter `PREFIX:GLOBAL:INODE`.

Byte strings are `List Char`.  All integer attribute values are written as
decimal ASCII (`%d`) and read back with `atoi` (handlers) or redis's own
integer parse (INCRBY), so the model carries a decimal printer `intStr`, the
C `atoi` and a strict redis-style integer parser `parseInt`, with round-trip
lemmas.
-/

/-- Byte strings (values of redis string keys, path names). -/
abbrev Str := List Char

/-! ### Decimal digits, printing, parsing -/

/-- The ASCII digit for `d` (`d` is always `< 10` at call sites; the
catch-all keeps the function total). -/
def digitChar : Nat → Char
  | 0 => '0' | 1 => '1' | 2 => '2' | 3 => '3' | 4 => '4'
  | 5 => '5' | 6 => '6' | 7 => '7' | 8 => '8' | _ => '9'

/-- Decode an ASCII digit. -/
def digit? (c : Char) : Option Nat :=
  if '0' ≤ c ∧ c ≤ '9' then some (c.toNat - 48) else none

/-- The digit-consuming loop of C `atoi`: consume leading digits into an
accumulator, stopping (and returning the accumulator) at the first
non-digit. -/
def atoiDigits : Str → Nat → Nat
  | [], acc => acc
  | c :: cs, acc =>
    match digit? c with
    | some d => atoiDigits cs (acc * 10 + d)
    | none => acc

/-- C `atoi` on a byte string: optional minus sign, then leading digits
(whitespace and a plus sign never occur in the stored values, so they are
not modelled). -/
def atoi (s : Str) : Int :=
  match s with
  | [] => 0
  | c :: cs => if c = '-' then -(atoiDigits cs 0 : Int) else (atoiDigits (c :: cs) 0 : Int)

/-- Strict digit parse: `none` as soon as a non-digit appears (redis rejects
the whole value in that case). -/
def parseIntDigits : Str → Nat → Option Nat
  | [], acc => some acc
  | c :: cs, acc =>
    match digit? c with
    | some d => parseIntDigits cs (acc * 10 + d)
    | none => none

/-- Redis's integer parse, used by INCRBY: the whole value must be an
optionally-signed run of digits. -/
def parseInt (s : Str) : Option Int :=
  match s with
  | [] => none
  | c :: cs =>
    if c = '-' then
      (if cs = [] then none else (parseIntDigits cs 0).map (fun n => -(n : Int)))
    else (parseIntDigits (c :: cs) 0).map (fun n => (n : Int))

/-- Fuelled decimal printer (the fuel only serves structural recursion; `n`
itself is always enough fuel since `n / 10 < n`). -/
def natToCharsFuel : Nat → Nat → Str → Str
  | 0, _, acc => acc
  | f + 1, n, acc =>
    if n < 10 then digitChar n :: acc
    else natToCharsFuel f (n / 10) (digitChar (n % 10) :: acc)

/-- Decimal ASCII of a natural number (what `%d` produces for values `≥ 0`). -/
def natToChars (n : Nat) : Str := natToCharsFuel (n + 1) n []

/-- Decimal ASCII of an integer (what `%d` produces). -/
def intStr (m : Int) : Str :=
  if m < 0 then '-' :: natToChars m.natAbs else natToChars m.toNat

theorem digitChar_ne_dash (d : Nat) : digitChar d ≠ '-' := by
  rcases d with _ | _ | _ | _ | _ | _ | _ | _ | _ | d <;>
    first
      | decide
      | exact (show ('9' : Char) ≠ '-' from by decide)

theorem digit?_digitChar {d : Nat} (h : d < 10) : digit? (digitChar d) = some d := by
  interval_cases d <;> decide

theorem natToCharsFuel_eq (f : Nat) :
    ∀ n acc, n < f → natToCharsFuel f n acc = natToChars n ++ acc := by
  induction f using Nat.strong_induction_on with
  | _ f ih =>
    intro n acc hn
    match f, hn with
    | f + 1, hn =>
      by_cases h10 : n < 10
      · simp [natToCharsFuel, natToChars, h10]
      · have hdiv : n / 10 < n := Nat.div_lt_self (by omega) (by omega)
        have lhs : natToCharsFuel (f + 1) n acc
            = natToCharsFuel f (n / 10) (digitChar (n % 10) :: acc) := by
          simp [natToCharsFuel, h10]
        have rhs : natToChars n
            = natToCharsFuel n (n / 10) (digitChar (n % 10) :: []) := by
          show natToCharsFuel (n + 1) n [] = _
          simp [natToCharsFuel, h10]
        rw [lhs, ih f (by omega) (n / 10) _ (by omega), rhs,
          ih n (by omega) (n / 10) _ (by omega)]
        simp

/-- Unfolding equation for the decimal printer. -/
theorem natToChars_eq (n : Nat) :
    natToChars n = if n < 10 then [digitChar n]
      else natToChars (n / 10) ++ [digitChar (n % 10)] := by
  by_cases h10 : n < 10
  · show natToCharsFuel (n + 1) n [] = _
    simp [natToCharsFuel, h10]
  · have hdiv : n / 10 < n := Nat.div_lt_self (by omega) (by omega)
    show natToCharsFuel (n + 1) n [] = _
    simp only [natToCharsFuel, h10, if_false, if_neg h10]
    rw [natToCharsFuel_eq n (n / 10) _ (by omega)]

/-- The decimal form of `n` starts with a digit. -/
theorem natToChars_head (n : Nat) :
    ∃ d cs, natToChars n = digitChar d :: cs ∧ d < 10 := by
  induction n using Nat.strong_induction_on with
  | _ n ih =>
    by_cases h10 : n < 10
    · exact ⟨n, [], by rw [natToChars_eq, if_pos h10], h10⟩
    · have hdiv : n / 10 < n := Nat.div_lt_self (by omega) (by omega)
      obtain ⟨d, cs, hd, hlt⟩ := ih (n / 10) hdiv
      refine ⟨d, cs ++ [digitChar (n % 10)], ?_, hlt⟩
      rw [natToChars_eq, if_neg h10, hd]
      simp

theorem parseIntDigits_natToChars (n : Nat) :
    ∀ rest, parseIntDigits (natToChars n ++ rest) 0 = parseIntDigits rest n := by
  induction n using Nat.strong_induction_on with
  | _ n ih =>
    intro rest
    by_cases h10 : n < 10
    · rw [natToChars_eq, if_pos h10]
      simp [parseIntDigits, digit?_digitChar h10]
    · have hdiv : n / 10 < n := Nat.div_lt_self (by omega) (by omega)
      rw [natToChars_eq, if_neg h10, List.append_assoc]
      rw [ih (n / 10) hdiv]
      have hm : n % 10 < 10 := Nat.mod_lt _ (by omega)
      simp only [List.cons_append, List.nil_append, parseIntDigits,
        digit?_digitChar hm]
      rw [show n / 10 * 10 + n % 10 = n from by omega]
      rfl

theorem atoiDigits_of_parseIntDigits :
    ∀ cs acc v, parseIntDigits cs acc = some v → atoiDigits cs acc = v := by
  intro cs
  induction cs with
  | nil => intro acc v h; simpa [parseIntDigits, atoiDigits] using h
  | cons c cs ih =>
    intro acc v h
    simp only [parseIntDigits] at h
    simp only [atoiDigits]
    cases hd : digit? c with
    | none => rw [hd] at h; exact absurd h (by simp)
    | some d => rw [hd] at h; exact ih _ _ h

theorem parseIntDigits_natToChars_nil (n : Nat) :
    parseIntDigits (natToChars n) 0 = some n := by
  have := parseIntDigits_natToChars n []
  simpa [parseIntDigits] using this

/-- Round trip: redis accepts what `%d` printed. -/
theorem parseInt_intStr (m : Int) : parseInt (intStr m) = some m := by
  by_cases hm : m < 0
  · have habs : (m.natAbs : Int) = -m := by omega
    rw [intStr, if_pos hm]
    obtain ⟨d, cs, hd, _⟩ := natToChars_head m.natAbs
    rw [parseInt]
    have hne : natToChars m.natAbs ≠ [] := by rw [hd]; simp
    simp only [if_pos rfl, if_neg hne, parseIntDigits_natToChars_nil]
    simp [habs]
  · rw [intStr, if_neg hm]
    obtain ⟨d, cs, hd, hlt⟩ := natToChars_head m.toNat
    rw [hd, parseInt, if_neg (by rw [← hd] at *; exact digitChar_ne_dash d), ← hd,
      parseIntDigits_natToChars_nil]
    simp [Int.toNat_of_nonneg (by omega : (0:Int) ≤ m)]

/-- Round trip: C `atoi` reads back what `%d` printed. -/
theorem atoi_intStr (m : Int) : atoi (intStr m) = m := by
  by_cases hm : m < 0
  · have habs : (m.natAbs : Int) = -m := by omega
    rw [intStr, if_pos hm, atoi, if_pos rfl,
      atoiDigits_of_parseIntDigits _ _ _ (parseIntDigits_natToChars_nil m.natAbs)]
    omega
  · rw [intStr, if_neg hm]
    obtain ⟨d, cs, hd, hlt⟩ := natToChars_head m.toNat
    rw [hd, atoi, if_neg (by rw [← hd] at *; exact digitChar_ne_dash d), ← hd,
      atoiDigits_of_parseIntDigits _ _ _ (parseIntDigits_natToChars_nil m.toNat)]
    simp [Int.toNat_of_nonneg (by omega : (0:Int) ≤ m)]

/-! ### Path utilities (src/pathutil.c) -/

/-- Split a byte string at its last `'/'`: `some (before, after)`, or `none`
when it contains no `'/'`. -/
def splitLast : Str → Option (Str × Str)
  | [] => none
  | c :: rest =>
    match splitLast rest with
    | some (b, a) => some (c :: b, a)
    | none => if c = '/' then some ([], rest) else none

/-- `get_parent` (pathutil.c): everything before the last `'/'`; `"/"` if
that is empty; `none` (C: NULL) if the path has no `'/'` at all. -/
def get_parent (path : Str) : Option Str :=
  match splitLast path with
  | none => none
  | some (b, _) => some (if b = [] then ['/'] else b)

/-- `get_basename` (pathutil.c): everything after the last `'/'`, or the
whole path if it has none. -/
def get_basename (path : Str) : Str :=
  match splitLast path with
  | none => path
  | some (_, a) => a

theorem splitLast_length :
    ∀ {cs b a : Str}, splitLast cs = some (b, a) → cs.length = b.length + a.length + 1 := by
  intro cs
  induction cs with
  | nil => intro b a h; exact absurd h (by simp [splitLast])
  | cons c rest ih =>
    intro b a h
    simp only [splitLast] at h
    cases hr : splitLast rest with
    | some p =>
      obtain ⟨b', a'⟩ := p
      rw [hr] at h
      simp only [Option.some.injEq, Prod.mk.injEq] at h
      obtain ⟨hb, ha⟩ := h
      subst hb; subst ha
      have := ih hr
      simp only [List.length_cons, this]
      omega
    | none =>
      rw [hr] at h
      by_cases hc : c = '/'
      · rw [if_pos hc] at h
        simp only [Option.some.injEq, Prod.mk.injEq] at h
        obtain ⟨hb, ha⟩ := h
        subst hb; subst ha
        simp
      · rw [if_neg hc] at h; exact absurd h (by simp)

theorem splitLast_nil_nil {cs : Str} (h : splitLast cs = some ([], [])) : cs = ['/'] := by
  match cs with
  | [] => exact absurd h (by simp [splitLast])
  | c :: rest =>
    simp only [splitLast] at h
    cases hr : splitLast rest with
    | some p =>
      obtain ⟨b', a'⟩ := p
      rw [hr] at h
      simp at h
    | none =>
      rw [hr] at h
      by_cases hc : c = '/'
      · rw [if_pos hc] at h
        simp only [Option.some.injEq, Prod.mk.injEq] at h
        rw [hc, h.2]
      · rw [if_neg hc] at h; exact absurd h (by simp)

/-- The parent of any path other than `"/"` is strictly shorter: this bounds
the recursion depth of the C resolver `find_inode`. -/
theorem get_parent_length_lt {p q : Str} (hp : p ≠ ['/']) (h : get_parent p = some q) :
    q.length < p.length := by
  rw [get_parent] at h
  cases hs : splitLast p with
  | none => rw [hs] at h; exact absurd h (by simp)
  | some ba =>
    obtain ⟨b, a⟩ := ba
    rw [hs] at h
    simp only [Option.some.injEq] at h
    have hlen := splitLast_length hs
    by_cases hb : b = []
    · rw [if_pos hb] at h
      subst hb
      have ha : a ≠ [] := by
        intro ha
        subst ha
        exact hp (splitLast_nil_nil hs)
      have : 0 < a.length := List.length_pos.mpr ha
      rw [← h]
      simp only [List.length_singleton]
      omega
    · rw [if_neg hb] at h
      rw [← h]
      omega

/-! ### The store model -/

/-- The per-inode attributes (the `A` of key `PREFIX:INODE:i:A`), in the
order `remove_inode` deletes them. -/
inductive Attr
  | NAME | TYPE | MODE | GID | UID | ATIME | CTIME | MTIME | SIZE | DATA | LINK | TARGET
  deriving DecidableEq

/-- The redis database as seen through the key codec: attribute keys,
directory-entry sets, and the global inode counter. -/
structure Store where
  attrs : Int → Attr → Option Str
  dirents : Int → List Int
  counter : Int

/-- The store with no key set and counter 0 (a fresh redis database). -/
def emptyStore : Store := ⟨fun _ _ => none, fun _ => [], 0⟩

/-- The FUSE caller credential (`fuse_get_context()->uid/gid`). -/
structure Ctx where
  uid : Nat
  gid : Nat

/-- The fields of `struct stat` that fs_getattr fills in. -/
structure StatBuf where
  st_mode : Int
  st_nlink : Int
  st_uid : Int
  st_gid : Int
  st_size : Int
  st_atime : Int
  st_mtime : Int
  st_ctime : Int

/-- `memset(stbuf, 0, sizeof(struct stat))`. -/
def zeroStat : StatBuf := ⟨0, 0, 0, 0, 0, 0, 0, 0⟩

def EPERM : Int := 1
def ENOENT : Int := 2
def ENOTEMPTY : Int := 39
def S_IFDIR : Int := 16384
def S_IFLNK : Int := 40960

/-- `SET`/`MSET` field of key `PREFIX:INODE:i:a` (`v = none` models `DEL`). -/
def Store.updAttr (s : Store) (i : Int) (a : Attr) (v : Option Str) : Store :=
  { s with attrs := fun j b => if j = i ∧ b = a then v else s.attrs j b }

def Store.setAttr (s : Store) (i : Int) (a : Attr) (v : Str) : Store :=
  s.updAttr i a (some v)

def Store.delAttr (s : Store) (i : Int) (a : Attr) : Store :=
  s.updAttr i a none

/-- `SADD PREFIX:DIRENT:i m`: no-op if `m` is already a member, else the new
member appears somewhere in the (unordered) set -- placed last here. -/
def Store.sadd (s : Store) (i m : Int) : Store :=
  { s with dirents := fun j =>
      if j = i then (if m ∈ s.dirents i then s.dirents i else s.dirents i ++ [m])
      else s.dirents j }

/-- `SREM PREFIX:DIRENT:i m`. -/
def Store.srem (s : Store) (i m : Int) : Store :=
  { s with dirents := fun j =>
      if j = i then (s.dirents i).filter (fun x => x != m) else s.dirents j }

/-- `APPEND PREFIX:INODE:i:a v` (an absent key is created, as in redis). -/
def Store.appendAttr (s : Store) (i : Int) (a : Attr) (v : Str) : Store :=
  s.setAttr i a ((s.attrs i a).getD [] ++ v)

/-- `INCRBY PREFIX:INODE:i:a delta`: an absent key counts as `"0"`; a value
that is not a decimal integer makes redis answer an error and leave the key
unchanged (the handlers ignore the reply). -/
def Store.incrby (s : Store) (i : Int) (a : Attr) (delta : Int) : Store :=
  match parseInt ((s.attrs i a).getD ['0']) with
  | some v => s.setAttr i a (intStr (v + delta))
  | none => s

@[simp] theorem attrs_updAttr (s : Store) (i : Int) (a : Attr) (v : Option Str)
    (j : Int) (b : Attr) :
    (s.updAttr i a v).attrs j b = if j = i ∧ b = a then v else s.attrs j b := rfl

@[simp] theorem dirents_updAttr (s : Store) (i : Int) (a : Attr) (v : Option Str) :
    (s.updAttr i a v).dirents = s.dirents := rfl

@[simp] theorem counter_updAttr (s : Store) (i : Int) (a : Attr) (v : Option Str) :
    (s.updAttr i a v).counter = s.counter := rfl

@[simp] theorem attrs_sadd (s : Store) (i m : Int) : (s.sadd i m).attrs = s.attrs := rfl

@[simp] theorem counter_sadd (s : Store) (i m : Int) : (s.sadd i m).counter = s.counter := rfl

@[simp] theorem dirents_sadd (s : Store) (i m j : Int) :
    (s.sadd i m).dirents j =
      if j = i then (if m ∈ s.dirents i then s.dirents i else s.dirents i ++ [m])
      else s.dirents j := rfl

@[simp] theorem attrs_srem (s : Store) (i m : Int) : (s.srem i m).attrs = s.attrs := rfl

@[simp] theorem dirents_srem (s : Store) (i m j : Int) :
    (s.srem i m).dirents j =
      if j = i then (s.dirents i).filter (fun x => x != m) else s.dirents j := rfl

theorem mem_sadd_self (s : Store) (i m : Int) : m ∈ (s.sadd i m).dirents i := by
  simp only [dirents_sadd, if_pos rfl]
  by_cases h : m ∈ s.dirents i
  · rw [if_pos h]; exact h
  · rw [if_neg h]; simp

theorem not_mem_srem_self (s : Store) (i m : Int) : m ∉ (s.srem i m).dirents i := by
  simp only [dirents_srem, if_pos rfl]
  intro h
  have := (List.mem_filter.mp h).2
  simp at this

/-! ### Resolver and inode helpers (redisfs.c) -/

/-- The scan loop of `find_inode`: over the members of the parent's
directory set, remember the last member whose NAME equals the wanted entry
(the C loop overwrites `val` on every match).  A member whose NAME key is
absent never matches (the C code would dereference NULL there; invariant
3.2(1) of the spec rules it out on reachable stores). -/
def scanNames (nameOf : Int → Option Str) (entry : Str) : List Int → Int → Int
  | [], val => val
  | m :: rest, val =>
    scanNames nameOf entry rest (if nameOf m = some entry then m else val)

/-- `find_inode`, made structural with fuel (one unit per path component;
`path.length` is always enough, see `findInodeFuel_stable`).  A path without
any `'/'` would make the C code pass NULL on (undefined behaviour); FUSE
only delivers absolute paths, and the model answers the not-found value. -/
def findInodeFuel (s : Store) : Nat → Str → Int
  | 0, _ => -1
  | f + 1, path =>
    if path = ['/'] then -99
    else
      match get_parent path with
      | none => -1
      | some par =>
        scanNames (fun m => s.attrs m Attr.NAME) (get_basename path)
          (s.dirents (findInodeFuel s f par)) (-1)

/-- `find_inode` (redisfs.c): `"/"` is the root sentinel −99; otherwise
resolve the parent recursively, fetch the parent's directory set, and scan
the members' NAME attributes for the basename; −1 if nothing matches. -/
def find_inode (s : Store) (path : Str) : Int := findInodeFuel s path.length path

theorem findInodeFuel_stable (s : Store) :
    ∀ f path, path.length ≤ f → findInodeFuel s f path = find_inode s path := by
  intro f
  induction f using Nat.strong_induction_on with
  | _ f ih =>
    intro path hlen
    match f with
    | 0 =>
      have : path = [] := List.length_eq_zero.mp (by omega)
      subst this
      rfl
    | f + 1 =>
      match path with
      | [] => rfl
      | c :: cs =>
        simp only [List.length_cons] at hlen
        show findInodeFuel s (f + 1) (c :: cs) = findInodeFuel s (c :: cs).length (c :: cs)
        simp only [List.length_cons, findInodeFuel]
        by_cases hroot : c :: cs = ['/']
        · rw [if_pos hroot, if_pos hroot]
        · rw [if_neg hroot, if_neg hroot]
          split
          · rfl
          · rename_i par hp
            have hlt : par.length < (c :: cs).length := get_parent_length_lt hroot hp
            simp only [List.length_cons] at hlt
            rw [ih f (by omega) par (by omega), ih cs.length (by omega) par (by omega)]

/-- Unfolding equation of the resolver. -/
theorem find_inode_eq (s : Store) (path : Str) :
    find_inode s path =
      if path = ['/'] then -99
      else
        match get_parent path with
        | none => -1
        | some par =>
          scanNames (fun m => s.attrs m Attr.NAME) (get_basename path)
            (s.dirents (find_inode s par)) (-1) := by
  match path with
  | [] => rfl
  | c :: cs =>
    show findInodeFuel s (cs.length + 1) (c :: cs) = _
    simp only [findInodeFuel]
    by_cases hroot : c :: cs = ['/']
    · rw [if_pos hroot, if_pos hroot]
    · rw [if_neg hroot, if_neg hroot]
      split
      · rfl
      · rename_i par hp
        have hlt : par.length < (c :: cs).length := get_parent_length_lt hroot hp
        simp only [List.length_cons] at hlt
        rw [findInodeFuel_stable s cs.length par (by omega)]

theorem scanNames_congr {f g : Int → Option Str} (h : ∀ m, f m = g m) (entry : Str) :
    ∀ l val, scanNames f entry l val = scanNames g entry l val := by
  intro l
  induction l with
  | nil => intro val; rfl
  | cons m rest ih => intro val; simp only [scanNames, h m, ih]

/-- Path resolution only looks at the directory sets and the NAME
attributes: any mutation leaving those alone leaves resolution alone. -/
theorem find_inode_congr {s t : Store}
    (hd : ∀ j, t.dirents j = s.dirents j)
    (hn : ∀ j, t.attrs j Attr.NAME = s.attrs j Attr.NAME) :
    ∀ path, find_inode t path = find_inode s path := by
  have main : ∀ f path, findInodeFuel t f path = findInodeFuel s f path := by
    intro f
    induction f with
    | zero => intro path; rfl
    | succ f ih =>
      intro path
      simp only [findInodeFuel]
      by_cases hroot : path = ['/']
      · rw [if_pos hroot, if_pos hroot]
      · rw [if_neg hroot, if_neg hroot]
        split
        · rfl
        · rename_i par hp
          rw [ih par, hd, scanNames_congr hn]
  intro path
  exact main path.length path

/-- `get_next_inode`: INCR the global counter; on an integer reply return
the new value, otherwise (connection or reply failure, modelled by
`ok = false`) the sentinel −1. -/
def get_next_inode (s : Store) (ok : Bool) : Store × Int :=
  ({ s with counter := s.counter + 1 }, if ok then s.counter + 1 else -1)

/-- `remove_inode`: a negative inode is refused ("Tried to free an unset
inode"), otherwise a pipelined DEL of every one of the 12 attribute keys. -/
def remove_inode (s : Store) (inode : Int) : Store :=
  if inode < 0 then s
  else ((((((((((((s.delAttr inode .NAME).delAttr inode .TYPE).delAttr inode .MODE).delAttr
    inode .GID).delAttr inode .UID).delAttr inode .ATIME).delAttr inode .CTIME).delAttr
    inode .MTIME).delAttr inode .SIZE).delAttr inode .DATA).delAttr inode .LINK).delAttr
    inode .TARGET)

/-- `is_directory`: −1 when the path does not resolve (note: truthy in C!),
1 when the TYPE attribute is `"DIR"`, else 0. -/
def is_directory (s : Store) (path : Str) : Int :=
  let inode := find_inode s path
  if inode = -1 then -1
  else if s.attrs inode .TYPE = some ['D', 'I', 'R'] then 1 else 0

/-- `count_directory_entries`: the cardinality of the directory set of the
resolved inode. -/
def count_directory_entries (s : Store) (path : Str) : Nat :=
  (s.dirents (find_inode s path)).length

/-- The C handlers call `get_parent` on FUSE-supplied absolute paths, where
it never returns NULL; the model maps the impossible NULL to `[]`, which no
resolution accepts. -/
def cParent (path : Str) : Str := (get_parent path).getD []

/-! ### Operation handlers (redisfs.c)

Every mutating handler takes the read-only flag as `ro` (the global
`_g_read_only`) and, where the C code reads `time(NULL)`, a `now`
parameter.  `mkdir`/`create`/`symlink` take `alloc_ok`, the success of the
INCR reply inside `get_next_inode` (see `get_next_inode`). -/

def tFILE : Str := ['F', 'I', 'L', 'E']
def tDIR : Str := ['D', 'I', 'R']
def tLINK : Str := ['L', 'I', 'N', 'K']

/-- `fs_getattr`.  The root is synthesized from `time(NULL)` and the
*process* credentials `getuid()`/`getgid()` (`procUid`/`procGid`); the FUSE
caller context `ctx` is not consulted by this handler at all.  For non-root
paths the first MGET fetches CTIME ATIME MTIME GID UID LINK (6 replies) but
the C code indexes the reply array off by one from element 4 on: st_uid is
read from slot 3 (GID) and st_nlink from slot 4 (UID).  The further access
to element[6] is out of bounds of the 6-element reply (undefined behaviour);
it is modelled as the guard failing, leaving st_ctime at slot 0's value. -/
def fs_getattr (s : Store) (procUid procGid : Nat) (ctx : Ctx) (path : Str)
    (now : Int) : StatBuf × Int :=
  if path = ['/'] then
    ({ st_mode := Int.lor S_IFDIR 493, st_nlink := 1,
       st_uid := (procUid : Int), st_gid := (procGid : Int), st_size := 0,
       st_atime := now, st_mtime := now, st_ctime := now }, 0)
  else
    let inode := find_inode s path
    if inode = -1 then (zeroStat, -ENOENT)
    else
      let b := zeroStat
      let b := match s.attrs inode .CTIME with
        | some v => { b with st_ctime := atoi v } | none => b
      let b := match s.attrs inode .ATIME with
        | some v => { b with st_atime := atoi v } | none => b
      let b := match s.attrs inode .MTIME with
        | some v => { b with st_mtime := atoi v } | none => b
      let b := match s.attrs inode .GID with
        | some v => { b with st_gid := atoi v } | none => b
      let b := match s.attrs inode .UID with
        | some _ => { b with st_uid := atoi ((s.attrs inode .GID).getD []) } | none => b
      let b := match s.attrs inode .LINK with
        | some _ => { b with st_nlink := atoi ((s.attrs inode .UID).getD []) } | none => b
      match s.attrs inode .TYPE with
      | none => (b, 0)
      | some t =>
        let b := match s.attrs inode .MODE with
          | some m => { b with st_mode := atoi m } | none => b
        if t = tDIR then ({ b with st_mode := Int.lor b.st_mode S_IFDIR }, 0)
        else if t = tLINK then
          ({ b with st_mode := Int.lor b.st_mode S_IFLNK, st_nlink := 1, st_size := 0 }, 0)
        else if t = tFILE then
          ((match s.attrs inode .SIZE with
            | some v => { b with st_size := atoi v } | none => b), 0)
        else (b, 0)

/-- `fs_mkdir`: no existence or parent check; SADD the fresh inode into the
(however-resolved) parent set, then MSET the whole attribute block. -/
def fs_mkdir (s : Store) (ro : Bool) (ctx : Ctx) (path : Str) (mode : Nat)
    (alloc_ok : Bool) (now : Int) : Store × Int :=
  if ro then (s, -EPERM)
  else
    let entry := get_basename path
    let alloc := get_next_inode s alloc_ok
    let s1 := alloc.1
    let new_inode := alloc.2
    let parent_inode := find_inode s1 (cParent path)
    let s2 := s1.sadd parent_inode new_inode
    let s3 := (((((((((s2.setAttr new_inode .NAME entry).setAttr new_inode .TYPE
      tDIR).setAttr new_inode .MODE (intStr mode)).setAttr new_inode .UID
      (intStr ctx.uid)).setAttr new_inode .GID (intStr ctx.gid)).setAttr new_inode .SIZE
      (intStr 0)).setAttr new_inode .CTIME (intStr now)).setAttr new_inode .MTIME
      (intStr now)).setAttr new_inode .ATIME (intStr now)).setAttr new_inode .LINK
      (intStr 1)
    (s3, 0)

/-- `fs_create`: identical to mkdir except TYPE=FILE (and the C code
resolves the parent before allocating the inode). -/
def fs_create (s : Store) (ro : Bool) (ctx : Ctx) (path : Str) (mode : Nat)
    (alloc_ok : Bool) (now : Int) : Store × Int :=
  if ro then (s, -EPERM)
  else
    let parent_inode := find_inode s (cParent path)
    let entry := get_basename path
    let alloc := get_next_inode s alloc_ok
    let s1 := alloc.1
    let key := alloc.2
    let s2 := s1.sadd parent_inode key
    let s3 := (((((((((s2.setAttr key .NAME entry).setAttr key .TYPE
      tFILE).setAttr key .MODE (intStr mode)).setAttr key .UID
      (intStr ctx.uid)).setAttr key .GID (intStr ctx.gid)).setAttr key .SIZE
      (intStr 0)).setAttr key .CTIME (intStr now)).setAttr key .MTIME
      (intStr now)).setAttr key .ATIME (intStr now)).setAttr key .LINK (intStr 1)
    (s3, 0)

/-- `fs_symlink target path`: eleven individual SETs after the SADD. -/
def fs_symlink (s : Store) (ro : Bool) (ctx : Ctx) (tgt path : Str)
    (alloc_ok : Bool) (now : Int) : Store × Int :=
  if ro then (s, -EPERM)
  else
    let parent_inode := find_inode s (cParent path)
    let entry := get_basename path
    let alloc := get_next_inode s alloc_ok
    let s1 := alloc.1
    let key := alloc.2
    let s2 := s1.sadd parent_inode key
    let s3 := ((((((((((s2.setAttr key .NAME entry).setAttr key .TYPE
      tLINK).setAttr key .TARGET tgt).setAttr key .MODE (intStr 292)).setAttr key .UID
      (intStr ctx.uid)).setAttr key .GID (intStr ctx.gid)).setAttr key .SIZE
      (intStr 0)).setAttr key .CTIME (intStr now)).setAttr key .MTIME
      (intStr now)).setAttr key .ATIME (intStr now)).setAttr key .LINK ['1']
    (s3, 0)

/-- `fs_rmdir`: note `if (!is_directory(path))` lets the −1 ("not found")
answer of `is_directory` pass, being truthy in C. -/
def fs_rmdir (s : Store) (ro : Bool) (path : Str) : Store × Int :=
  if ro then (s, -EPERM)
  else if is_directory s path = 0 then (s, -ENOENT)
  else if count_directory_entries s path ≠ 0 then (s, -ENOTEMPTY)
  else
    let parent_inode := find_inode s (cParent path)
    let inode := find_inode s path
    if inode = -1 then (s, -ENOENT)
    else (remove_inode (s.srem parent_inode inode) inode, 0)

/-- `fs_unlink`: remove from the parent set, then erase the attribute
block.  No type check: directories reaching it are removed the same way. -/
def fs_unlink (s : Store) (ro : Bool) (path : Str) : Store × Int :=
  if ro then (s, -EPERM)
  else
    let inode := find_inode s path
    if inode = -1 then (s, -ENOENT)
    else
      let parent_inode := find_inode s (cParent path)
      (remove_inode (s.srem parent_inode inode) inode, 0)

/-- `fs_write`: the resolved inode is used unchecked (it is the not-found
value −1 for a missing path).  Offset 0 overwrites SIZE/MTIME/DATA in one
MSET; a non-zero offset is pure append: INCRBY on SIZE, APPEND on DATA, and
(unless `--fast`) a SET of MTIME.  Always returns `size`.  The C
`memcpy(mem, buf, size)` is `buf.take size` (FUSE hands at least `size`
bytes). -/
def fs_write (s : Store) (ro fast : Bool) (path : Str) (buf : Str)
    (size off : Nat) (now : Int) : Store × Int :=
  if ro then (s, -EPERM)
  else
    let inode := find_inode s path
    if off = 0 then
      let mem := buf.take size
      let s1 := ((s.setAttr inode .SIZE (intStr size)).setAttr inode .MTIME
        (intStr now)).setAttr inode .DATA mem
      (s1, (size : Int))
    else
      let mem := buf.take size
      let s1 := s.incrby inode .SIZE (size : Int)
      let s2 := s1.appendAttr inode .DATA mem
      let s3 := if fast then s2 else s2.setAttr inode .MTIME (intStr now)
      (s3, (size : Int))

/-- `GETRANGE key start stop` on the value `v`: the inclusive byte range
`[start, stop]`, clamped to the value's length. -/
def redisRange (v : Str) (start stop : Nat) : Str :=
  (v.drop start).take (stop - start + 1)

/-- `fs_read`: clamp the requested size against the stored SIZE (both held
in unsigned variables in C; the arithmetic below never wraps on the claims'
inputs, where `offset ≤ SIZE`), GETRANGE bytes `[offset, offset+size]` of
DATA -- one byte more than needed -- and copy only `size` of them out.  An
absent SIZE key would make the C code pass NULL to atoi; modelled as the
empty value. -/
def fs_read (s : Store) (path : Str) (size0 off : Nat) : Str × Int :=
  let inode := find_inode s path
  if inode = -1 then ([], -ENOENT)
  else
    let sz := (atoi ((s.attrs inode .SIZE).getD [])).toNat
    let size1 := if sz < size0 then sz else size0
    let size2 := if off + size1 > sz then sz - off else size1
    let data := (s.attrs inode .DATA).getD []
    let chunk := redisRange data off (size2 + off)
    (chunk.take size2, (size2 : Int))

/-- `fs_truncate`: the requested size is ignored; DATA is deleted and SIZE
reset to `"0"`.  `if (is_directory(path))` sends both directories (1) and
unresolved paths (−1, truthy) to `-ENOENT`. -/
def fs_truncate (s : Store) (ro : Bool) (path : Str) (reqSize : Int)
    (now : Int) : Store × Int :=
  if ro then (s, -EPERM)
  else if is_directory s path ≠ 0 then (s, -ENOENT)
  else
    let inode := find_inode s path
    if inode = -1 then (s, -ENOENT)
    else
      let s1 := s.delAttr inode .DATA
      let s2 := (s1.setAttr inode .SIZE (intStr 0)).setAttr inode .MTIME (intStr now)
      (s2, 0)

/-- `fs_chmod`: MSET of MODE and MTIME. -/
def fs_chmod (s : Store) (ro : Bool) (path : Str) (mode : Nat) (now : Int) :
    Store × Int :=
  if ro then (s, -EPERM)
  else
    let inode := find_inode s path
    if inode = -1 then (s, -ENOENT)
    else ((s.setAttr inode .MODE (intStr mode)).setAttr inode .MTIME (intStr now), 0)

/-- `fs_chown`: MSET of UID, GID and MTIME. -/
def fs_chown (s : Store) (ro : Bool) (path : Str) (uid gid : Nat) (now : Int) :
    Store × Int :=
  if ro then (s, -EPERM)
  else
    let inode := find_inode s path
    if inode = -1 then (s, -ENOENT)
    else
      (((s.setAttr inode .UID (intStr uid)).setAttr inode .GID
        (intStr gid)).setAttr inode .MTIME (intStr now), 0)

/-- `fs_utimens`: MSET of ATIME and MTIME from the two timespecs. -/
def fs_utimens (s : Store) (ro : Bool) (path : Str) (tv0 tv1 : Int) :
    Store × Int :=
  if ro then (s, -EPERM)
  else
    let inode := find_inode s path
    if inode = -1 then (s, -ENOENT)
    else ((s.setAttr inode .ATIME (intStr tv0)).setAttr inode .MTIME (intStr tv1), 0)

/-- `fs_rename old pnew`: SET the NAME to `basename(pnew)` first, then SREM
from old parent's set and SADD to new parent's set, each parent being
resolved on the store as mutated so far.  No check that `pnew` exists. -/
def fs_rename (s : Store) (ro : Bool) (old pnew : Str) : Store × Int :=
  if ro then (s, -EPERM)
  else
    let old_inode := find_inode s old
    if old_inode = -1 then (s, -ENOENT)
    else
      let s1 := s.setAttr old_inode .NAME (get_basename pnew)
      let s2 := s1.srem (find_inode s1 (cParent old)) old_inode
      let s3 := s2.sadd (find_inode s2 (cParent pnew)) old_inode
      (s3, 0)

/-! ### Claim C2: read-only mode -/

/-- C2: when the filesystem is started read-only, each of the eleven
mutating operations mkdir, rmdir, create, unlink, write, truncate, symlink,
chmod, chown, utimens and rename returns `-EPERM` immediately, before
issuing any command to the backing store: the result store is the input
store, unchanged. -/
theorem read_only_mutators_eperm (s : Store) (ctx : Ctx) (path tgt old pnew buf : Str)
    (mode uid gid size off : Nat) (alloc_ok fast : Bool) (now tv0 tv1 reqSize : Int) :
    fs_mkdir s true ctx path mode alloc_ok now = (s, -EPERM)
    ∧ fs_rmdir s true path = (s, -EPERM)
    ∧ fs_create s true ctx path mode alloc_ok now = (s, -EPERM)
    ∧ fs_unlink s true path = (s, -EPERM)
    ∧ fs_write s true fast path buf size off now = (s, -EPERM)
    ∧ fs_truncate s true path reqSize now = (s, -EPERM)
    ∧ fs_symlink s true ctx tgt path alloc_ok now = (s, -EPERM)
    ∧ fs_chmod s true path mode now = (s, -EPERM)
    ∧ fs_chown s true path uid gid now = (s, -EPERM)
    ∧ fs_utimens s true path tv0 tv1 = (s, -EPERM)
    ∧ fs_rename s true old pnew = (s, -EPERM) :=
  ⟨rfl, rfl, rfl, rfl, rfl, rfl, rfl, rfl, rfl, rfl, rfl⟩

/-! ### Claim C8: getattr of the root -/

/-- C8 counterexample: the claim says the synthesized root stat carries the
*calling context's* uid and gid.  It does not: `fs_getattr` fills st_uid and
st_gid from `getuid()`/`getgid()` of the filesystem process (which main()
forces to run as root, uid 0), never reading `fuse_get_context()`.  With
process credentials 0/0 and a caller context uid 1000 / gid 500, the
returned stat has uid 0 and gid 0. -/
theorem getattr_root_uses_process_ids :
    ((fs_getattr emptyStore 0 0 ⟨1000, 500⟩ ['/'] 77).1.st_uid = 0
      ∧ (fs_getattr emptyStore 0 0 ⟨1000, 500⟩ ['/'] 77).1.st_gid = 0)
    ∧ ¬((fs_getattr emptyStore 0 0 ⟨1000, 500⟩ ['/'] 77).1.st_uid = 1000
        ∧ (fs_getattr emptyStore 0 0 ⟨1000, 500⟩ ['/'] 77).1.st_gid = 500) := by
  constructor
  · exact ⟨rfl, rfl⟩
  · intro h
    exact absurd h.1 (by decide)

/-- C8 (amended): getattr("/") always returns 0 with a synthesized stat:
mode `S_IFDIR | 0755`, link count 1, atime = mtime = ctime = the current
time, and uid and gid equal to the *process's* uid and gid
(`getuid()`/`getgid()`), regardless of store contents and of the FUSE
calling context. -/
theorem getattr_root (s : Store) (procUid procGid : Nat) (ctx : Ctx) (now : Int) :
    fs_getattr s procUid procGid ctx ['/'] now =
      ({ st_mode := Int.lor S_IFDIR 493, st_nlink := 1,
         st_uid := (procUid : Int), st_gid := (procGid : Int), st_size := 0,
         st_atime := now, st_mtime := now, st_ctime := now }, 0) := rfl

/-! ### Claim C10: remove_inode on negative inodes, unlink of the root -/

/-- C10: `remove_inode` refuses every negative inode argument, deleting
nothing; consequently `unlink("/")` -- whose path resolves to the root
sentinel −99, not to the not-found value −1 -- passes the not-found check,
issues an SREM of member −99 against the root's own directory set (a no-op
whenever −99 is not a member of it, which nothing ever adds), has its
`remove_inode(-99)` refused, and returns 0 with the store unchanged. -/
theorem unlink_root_noop :
    (∀ (s : Store) (i : Int), i < 0 → remove_inode s i = s)
    ∧ (∀ s : Store, (-99 : Int) ∉ s.dirents (-99) → fs_unlink s false ['/'] = (s, 0)) := by
  constructor
  · intro s i hi
    rw [remove_inode, if_pos hi]
  · intro s hmem
    have hsrem : s.srem (-99) (-99) = s := by
      have hd : ∀ j, (s.srem (-99) (-99)).dirents j = s.dirents j := by
        intro j
        rw [dirents_srem]
        by_cases hj : j = (-99 : Int)
        · rw [if_pos hj, hj]
          rw [List.filter_eq_self.mpr]
          intro a ha
          simp only [bne_iff_ne, ne_eq]
          intro heq
          exact hmem (heq ▸ ha)
        · rw [if_neg hj]
      cases s with
      | mk attrs dirents counter =>
        show Store.mk _ _ _ = _
        congr 1
        funext j
        exact hd j
    show (remove_inode (s.srem (-99) (-99)) (-99), (0 : Int)) = (s, 0)
    rw [hsrem, remove_inode, if_pos (by decide : (-99 : Int) < 0)]

/-- C10 witness: the two parts instantiated on the empty store and inode −1. -/
theorem unlink_root_noop_witness :
    remove_inode emptyStore (-1) = emptyStore
    ∧ fs_unlink emptyStore false ['/'] = (emptyStore, 0) :=
  ⟨unlink_root_noop.1 emptyStore (-1) (by decide),
   unlink_root_noop.2 emptyStore (by simp [emptyStore])⟩

/-! ### Helper lemmas about remove_inode and counter bumps -/

theorem remove_inode_attrs (s : Store) (i : Int) (h : ¬i < 0) (a : Attr) :
    (remove_inode s i).attrs i a = none := by
  rw [remove_inode, if_neg h]
  cases a <;> simp [Store.delAttr]

theorem remove_inode_dirents (s : Store) (i : Int) :
    (remove_inode s i).dirents = s.dirents := by
  rw [remove_inode]
  split
  · rfl
  · rfl

theorem find_inode_counter (s : Store) (c : Int) (path : Str) :
    find_inode { s with counter := c } path = find_inode s path :=
  @find_inode_congr s { s with counter := c } (fun _ => rfl) (fun _ => rfl) path

/-! ### Claim C4: allocator failure is not checked by the callers -/

/-- C4 counterexample: the claim says a caller of `get_next_inode` aborts
with `-EIO` (−5) when the allocator answers the sentinel −1, writing no
entry under that sentinel.  On the empty store, `fs_create` with a failed
allocation returns 0 -- not −5 -- and has written the TYPE attribute under
inode −1. -/
theorem create_alloc_failure_counterexample :
    (fs_create emptyStore false ⟨0, 0⟩ ['/', 'f'] 420 false 7).2 = 0
    ∧ (fs_create emptyStore false ⟨0, 0⟩ ['/', 'f'] 420 false 7).2 ≠ -5
    ∧ (fs_create emptyStore false ⟨0, 0⟩ ['/', 'f'] 420 false 7).1.attrs (-1) Attr.TYPE
        = some tFILE := by
  refine ⟨rfl, by decide, ?_⟩
  decide

/-- C4 (amended): when the INCR reply is not an integer, `get_next_inode`
returns the sentinel −1; but none of its callers checks for it: mkdir,
create and symlink all proceed, SADD −1 into the resolved parent's
directory set, write the attribute block under inode −1, and return 0
(rather than aborting with `-EIO`). -/
theorem alloc_failure_not_aborted (s : Store) (ctx : Ctx) (path tgt : Str)
    (mode : Nat) (now : Int) :
    (get_next_inode s false).2 = -1
    ∧ (fs_create s false ctx path mode false now).2 = 0
    ∧ (fs_create s false ctx path mode false now).1.attrs (-1) Attr.TYPE = some tFILE
    ∧ (-1 : Int) ∈ (fs_create s false ctx path mode false now).1.dirents
        (find_inode s (cParent path))
    ∧ (fs_mkdir s false ctx path mode false now).2 = 0
    ∧ (fs_mkdir s false ctx path mode false now).1.attrs (-1) Attr.TYPE = some tDIR
    ∧ (-1 : Int) ∈ (fs_mkdir s false ctx path mode false now).1.dirents
        (find_inode s (cParent path))
    ∧ (fs_symlink s false ctx tgt path false now).2 = 0
    ∧ (fs_symlink s false ctx tgt path false now).1.attrs (-1) Attr.TYPE = some tLINK
    ∧ (-1 : Int) ∈ (fs_symlink s false ctx tgt path false now).1.dirents
        (find_inode s (cParent path)) := by
  refine ⟨rfl, rfl, ?_, ?_, rfl, ?_, ?_, rfl, ?_, ?_⟩
  · simp [fs_create, get_next_inode, Store.setAttr]
  · show (-1 : Int) ∈ (Store.sadd _ _ (-1)).dirents (find_inode s (cParent path))
    exact mem_sadd_self _ _ _
  · simp [fs_mkdir, get_next_inode, Store.setAttr]
  · have hc : find_inode (get_next_inode s false).1 (cParent path)
        = find_inode s (cParent path) :=
      @find_inode_congr s (get_next_inode s false).1 (fun _ => rfl) (fun _ => rfl)
        (cParent path)
    show (-1 : Int) ∈ ((get_next_inode s false).1.sadd
      (find_inode (get_next_inode s false).1 (cParent path)) (-1)).dirents
      (find_inode s (cParent path))
    rw [hc]
    exact mem_sadd_self _ _ _
  · simp [fs_symlink, get_next_inode, Store.setAttr]
  · show (-1 : Int) ∈ (Store.sadd _ _ (-1)).dirents (find_inode s (cParent path))
    exact mem_sadd_self _ _ _

/-! ### Claim C7: rmdir of a non-empty directory -/

/-- C7: rmdir of a path resolving to a directory whose entry set is
non-empty returns `-ENOTEMPTY` and mutates nothing: the result store is the
input store, so every attribute key and every directory-set membership --
in particular the directory itself and any child created inside it -- is
unchanged, and both still resolve. -/
theorem rmdir_nonempty (s : Store) (path : Str)
    (hdir : is_directory s path = 1)
    (hcnt : count_directory_entries s path ≠ 0) :
    fs_rmdir s false path = (s, -ENOTEMPTY) := by
  show (if is_directory s path = 0 then (s, -ENOENT)
    else if count_directory_entries s path ≠ 0 then (s, -ENOTEMPTY) else _) = _
  rw [hdir, if_neg (by decide : ¬(1 : Int) = 0), if_pos hcnt]

/-- C7 witness, realizing the claim's scenario `mkdir(p); create(p/q);
rmdir(p)` from the empty store: the rmdir answers `-ENOTEMPTY` and returns
the store unchanged. -/
theorem rmdir_nonempty_witness :
    fs_rmdir (fs_create (fs_mkdir emptyStore false ⟨0, 0⟩ ['/', 'd'] 493 true 3).1
        false ⟨0, 0⟩ ['/', 'd', '/', 'q'] 420 true 4).1 false ['/', 'd']
      = ((fs_create (fs_mkdir emptyStore false ⟨0, 0⟩ ['/', 'd'] 493 true 3).1
          false ⟨0, 0⟩ ['/', 'd', '/', 'q'] 420 true 4).1, -ENOTEMPTY) :=
  rmdir_nonempty _ _ (by decide) (by decide)

/-! ### Claim C9: write on an unresolved path -/

/-- C9: a write whose path does not resolve is not refused: `find_inode`
answers −1, `fs_write` uses it unchecked, returns `size` (never `-ENOENT`),
and its SIZE/MTIME/DATA commands are issued against inode −1, materializing
keys under the not-found sentinel. -/
theorem write_unresolved_path (s : Store) (fast : Bool) (path buf : Str)
    (size off : Nat) (now : Int) (h : find_inode s path = -1) :
    (fs_write s false fast path buf size off now).2 = (size : Int)
    ∧ (fs_write s false fast path buf size off now).2 ≠ -ENOENT
    ∧ (off = 0 →
        (fs_write s false fast path buf size off now).1.attrs (-1) Attr.SIZE
            = some (intStr size)
        ∧ (fs_write s false fast path buf size off now).1.attrs (-1) Attr.MTIME
            = some (intStr now)
        ∧ (fs_write s false fast path buf size off now).1.attrs (-1) Attr.DATA
            = some (buf.take size))
    ∧ (off ≠ 0 →
        (fs_write s false fast path buf size off now).1.attrs (-1) Attr.DATA
            = some ((s.attrs (-1) Attr.DATA).getD [] ++ buf.take size)) := by
  refine ⟨?_, ?_, ?_, ?_⟩
  · by_cases h0 : off = 0 <;> simp [fs_write, h0]
  · by_cases h0 : off = 0 <;> simp [fs_write, h0, ENOENT]
  · intro h0
    subst h0
    simp only [fs_write, if_pos rfl, h]
    refine ⟨?_, ?_, ?_⟩ <;> simp [Store.setAttr]
  · intro h0
    simp only [fs_write, if_neg h0, h]
    cases fast with
    | true =>
      simp only [if_pos rfl, Store.appendAttr, Store.setAttr, Store.incrby]
      cases hp : parseInt ((s.attrs (-1) Attr.SIZE).getD ['0']) <;> simp [Store.setAttr]
    | false =>
      simp only [Bool.false_eq_true, if_false, Store.appendAttr, Store.setAttr, Store.incrby]
      cases hp : parseInt ((s.attrs (-1) Attr.SIZE).getD ['0']) <;> simp [Store.setAttr]

/-- C9 witness: on the empty store (where no path but the root resolves),
a write to the missing `/nope` at offset 0 returns 3 and creates the DATA
key under inode −1. -/
theorem write_unresolved_path_witness :
    (fs_write emptyStore false false ['/', 'n'] ['a', 'b', 'c'] 3 0 9).2 = 3
    ∧ (fs_write emptyStore false false ['/', 'n'] ['a', 'b', 'c'] 3 0 9).1.attrs
        (-1) Attr.DATA = some ['a', 'b', 'c'] := by
  have h := write_unresolved_path emptyStore false ['/', 'n'] ['a', 'b', 'c'] 3 0 9
    (by decide)
  exact ⟨h.1, (h.2.2.1 rfl).2.2⟩

/-! ### Claim C1: create followed by getattr -/

/-- C1 evaluated at a failing input: on the empty store, a caller with
uid 1000 / gid 100 creates `/f` with mode 420 (0644) and stats it.  The
returned stat has the claimed gid (100), size (0) and permission bits
(420) -- but, because `fs_getattr` indexes its six-element MGET reply off
by one from slot 4, st_uid is filled from the GID slot (100, not the
caller's uid 1000) and st_nlink from the UID slot (1000, not the stored
link count 1).  The claim's "uid equals the caller's uid" and "link count
is 1" both fail. -/
theorem create_getattr_uid_nlink_swapped :
    (fs_getattr (fs_create emptyStore false ⟨1000, 100⟩ ['/', 'f'] 420 true 111).1
        0 0 ⟨1000, 100⟩ ['/', 'f'] 222).2 = 0
    ∧ (fs_getattr (fs_create emptyStore false ⟨1000, 100⟩ ['/', 'f'] 420 true 111).1
        0 0 ⟨1000, 100⟩ ['/', 'f'] 222).1.st_gid = 100
    ∧ (fs_getattr (fs_create emptyStore false ⟨1000, 100⟩ ['/', 'f'] 420 true 111).1
        0 0 ⟨1000, 100⟩ ['/', 'f'] 222).1.st_size = 0
    ∧ (fs_getattr (fs_create emptyStore false ⟨1000, 100⟩ ['/', 'f'] 420 true 111).1
        0 0 ⟨1000, 100⟩ ['/', 'f'] 222).1.st_mode = 420
    ∧ (fs_getattr (fs_create emptyStore false ⟨1000, 100⟩ ['/', 'f'] 420 true 111).1
        0 0 ⟨1000, 100⟩ ['/', 'f'] 222).1.st_uid = 100
    ∧ (fs_getattr (fs_create emptyStore false ⟨1000, 100⟩ ['/', 'f'] 420 true 111).1
        0 0 ⟨1000, 100⟩ ['/', 'f'] 222).1.st_uid ≠ 1000
    ∧ (fs_getattr (fs_create emptyStore false ⟨1000, 100⟩ ['/', 'f'] 420 true 111).1
        0 0 ⟨1000, 100⟩ ['/', 'f'] 222).1.st_nlink = 1000
    ∧ (fs_getattr (fs_create emptyStore false ⟨1000, 100⟩ ['/', 'f'] 420 true 111).1
        0 0 ⟨1000, 100⟩ ['/', 'f'] 222).1.st_nlink ≠ 1 := by
  decide

/-! ### Claim C3: create then unlink erases the inode -/

/-- C3: after `create(p)` (from a store whose counter is non-negative, so
the allocated inode `counter + 1` is a genuine positive inode) followed by
`unlink(p)`, provided `p` resolves -- to the inode the create allocated --
and its parent resolves, no attribute key of that inode remains in the
store (NAME, TYPE, MODE, GID, UID, ATIME, CTIME, MTIME, SIZE, DATA, LINK,
TARGET are all absent), the parent directory's entry set no longer contains
its number, and the unlink returned 0. -/
theorem create_unlink_erases (s : Store) (ctx : Ctx) (path : Str) (mode : Nat)
    (now : Int) (pi : Int)
    (hc : 0 ≤ s.counter)
    (h1 : find_inode (fs_create s false ctx path mode true now).1 path = s.counter + 1)
    (h2 : find_inode (fs_create s false ctx path mode true now).1 (cParent path) = pi) :
    (∀ a, (fs_unlink (fs_create s false ctx path mode true now).1 false path).1.attrs
        (s.counter + 1) a = none)
    ∧ (s.counter + 1) ∉ (fs_unlink (fs_create s false ctx path mode true now).1
        false path).1.dirents pi
    ∧ (fs_unlink (fs_create s false ctx path mode true now).1 false path).2 = 0 := by
  have hne : ¬(s.counter + 1 = (-1 : Int)) := by omega
  have hres : fs_unlink (fs_create s false ctx path mode true now).1 false path
      = (remove_inode
          ((fs_create s false ctx path mode true now).1.srem pi (s.counter + 1))
          (s.counter + 1), 0) := by
    show (if find_inode (fs_create s false ctx path mode true now).1 path = -1
      then ((fs_create s false ctx path mode true now).1, -ENOENT)
      else (remove_inode
        ((fs_create s false ctx path mode true now).1.srem
          (find_inode (fs_create s false ctx path mode true now).1 (cParent path))
          (find_inode (fs_create s false ctx path mode true now).1 path))
        (find_inode (fs_create s false ctx path mode true now).1 path), 0)) = _
    rw [h1, h2, if_neg hne]
  rw [hres]
  refine ⟨?_, ?_, rfl⟩
  · intro a
    exact remove_inode_attrs _ _ (by omega) a
  · rw [show (remove_inode
        ((fs_create s false ctx path mode true now).1.srem pi (s.counter + 1))
        (s.counter + 1)).dirents = _ from remove_inode_dirents _ _]
    exact not_mem_srem_self _ _ _

/-- C3 witness: from the empty store, create `/f` (allocating inode 1 under
parent −99) then unlink it; the DATA key of inode 1 is gone (as is every
other attribute, by the theorem), inode 1 is no longer in the root's
directory set, and the unlink returned 0. -/
theorem create_unlink_erases_witness :
    (fs_unlink (fs_create emptyStore false ⟨0, 0⟩ ['/', 'f'] 420 true 5).1
        false ['/', 'f']).1.attrs 1 Attr.DATA = none
    ∧ (1 : Int) ∉ (fs_unlink (fs_create emptyStore false ⟨0, 0⟩ ['/', 'f'] 420 true 5).1
        false ['/', 'f']).1.dirents (-99)
    ∧ (fs_unlink (fs_create emptyStore false ⟨0, 0⟩ ['/', 'f'] 420 true 5).1
        false ['/', 'f']).2 = 0 := by
  have h := create_unlink_erases emptyStore ⟨0, 0⟩ ['/', 'f'] 420 5 (-99)
    (by decide) (by decide) (by decide)
  exact ⟨h.1 Attr.DATA, h.2.1, h.2.2⟩

/-! ### Writes do not disturb resolution -/

theorem find_inode_setAttr_ne (a : Attr) (ha : Attr.NAME ≠ a) (s : Store) (i : Int)
    (v : Str) (p : Str) :
    find_inode (s.setAttr i a v) p = find_inode s p :=
  @find_inode_congr s (s.setAttr i a v) (fun _ => rfl)
    (fun j => by
      rw [Store.setAttr, attrs_updAttr, if_neg]
      intro hcon
      exact ha hcon.2) p

theorem find_inode_incrby (s : Store) (i delta : Int) (p : Str) :
    find_inode (s.incrby i Attr.SIZE delta) p = find_inode s p := by
  rw [Store.incrby]
  split
  · exact find_inode_setAttr_ne Attr.SIZE (by decide) _ _ _ _
  · rfl

/-- `fs_write` never touches a NAME attribute nor a directory set, so it
leaves every path resolution unchanged. -/
theorem find_inode_write (s : Store) (fast : Bool) (path buf : Str) (size off : Nat)
    (now : Int) (p : Str) :
    find_inode (fs_write s false fast path buf size off now).1 p = find_inode s p := by
  by_cases h0 : off = 0
  · have he : (fs_write s false fast path buf size off now).1
        = ((s.setAttr (find_inode s path) Attr.SIZE (intStr (size : Int))).setAttr
            (find_inode s path) Attr.MTIME (intStr now)).setAttr
            (find_inode s path) Attr.DATA (buf.take size) := by
      subst h0; rfl
    rw [he, find_inode_setAttr_ne Attr.DATA (by decide),
      find_inode_setAttr_ne Attr.MTIME (by decide),
      find_inode_setAttr_ne Attr.SIZE (by decide)]
  · have he : (fs_write s false fast path buf size off now).1
        = (if fast
            then (s.incrby (find_inode s path) Attr.SIZE (size : Int)).appendAttr
              (find_inode s path) Attr.DATA (buf.take size)
            else ((s.incrby (find_inode s path) Attr.SIZE (size : Int)).appendAttr
              (find_inode s path) Attr.DATA (buf.take size)).setAttr
              (find_inode s path) Attr.MTIME (intStr now)) := by
      simp only [fs_write, Bool.false_eq_true, if_false, if_neg h0]
    rw [he]
    cases fast with
    | true =>
      rw [if_pos rfl, Store.appendAttr, find_inode_setAttr_ne Attr.DATA (by decide),
        find_inode_incrby]
    | false =>
      rw [if_neg Bool.false_ne_true, find_inode_setAttr_ne Attr.MTIME (by decide),
        Store.appendAttr, find_inode_setAttr_ne Attr.DATA (by decide),
        find_inode_incrby]

/-! ### Reading a whole file back -/

/-- `fs_read` of the complete contents: when a path resolves and its inode
carries SIZE = decimal of the DATA length, a read of that many bytes at
offset 0 returns exactly the DATA bytes and reports that many copied. -/
theorem read_full (t : Store) (p d : Str) (h : find_inode t p ≠ -1)
    (hS : t.attrs (find_inode t p) Attr.SIZE = some (intStr (d.length : Int)))
    (hD : t.attrs (find_inode t p) Attr.DATA = some d) :
    fs_read t p d.length 0 = (d, (d.length : Int)) := by
  simp only [fs_read, hS, hD, if_neg h, Option.getD_some, atoi_intStr]
  rw [show ((d.length : Int)).toNat = d.length from by omega]
  rw [if_neg (lt_irrefl d.length), if_neg (by omega : ¬0 + d.length > d.length)]
  simp only [redisRange, List.drop_zero, Nat.add_zero, Nat.sub_zero]
  rw [List.take_take, show min d.length (d.length + 1) = d.length from by omega,
    List.take_length]

/-! ### Claim C5: two writes then a full read -/

/-- C5: for a resolvable path, `write(p, b1, |b1|, 0)` then
`write(p, b2, |b2|, |b1|)` then `read(p, _, |b1|+|b2|, 0)` returns the
concatenation `b1 ++ b2` and reports `|b1|+|b2|` bytes copied (for any
setting of the `--fast` flag; the second write takes the overwrite branch
when `b1` is empty and the append branch otherwise). -/
theorem write_write_read_concat (s : Store) (fast : Bool) (p b1 b2 : Str)
    (now1 now2 : Int) (h : find_inode s p ≠ -1) :
    fs_read (fs_write (fs_write s false fast p b1 b1.length 0 now1).1
        false fast p b2 b2.length b1.length now2).1 p (b1.length + b2.length) 0
      = (b1 ++ b2, ((b1.length + b2.length : Nat) : Int)) := by
  have hw1 : (fs_write s false fast p b1 b1.length 0 now1).1
      = ((s.setAttr (find_inode s p) Attr.SIZE (intStr (b1.length : Int))).setAttr
          (find_inode s p) Attr.MTIME (intStr now1)).setAttr
          (find_inode s p) Attr.DATA (b1.take b1.length) := rfl
  have hr1 : find_inode (fs_write s false fast p b1 b1.length 0 now1).1 p
      = find_inode s p := find_inode_write s fast p b1 b1.length 0 now1 p
  have hS1 : (fs_write s false fast p b1 b1.length 0 now1).1.attrs
      (find_inode s p) Attr.SIZE = some (intStr (b1.length : Int)) := by
    rw [hw1]; simp [Store.setAttr]
  have hD1 : (fs_write s false fast p b1 b1.length 0 now1).1.attrs
      (find_inode s p) Attr.DATA = some b1 := by
    rw [hw1]; simp [Store.setAttr]
  by_cases hb1 : b1.length = 0
  · have hb1e : b1 = [] := List.length_eq_zero.mp hb1
    subst hb1e
    simp only [List.length_nil, Nat.zero_add, List.nil_append]
    have hw2 : (fs_write (fs_write s false fast p [] 0 0 now1).1
        false fast p b2 b2.length 0 now2).1
        = (((fs_write s false fast p [] 0 0 now1).1.setAttr
            (find_inode (fs_write s false fast p [] 0 0 now1).1 p) Attr.SIZE
            (intStr (b2.length : Int))).setAttr
            (find_inode (fs_write s false fast p [] 0 0 now1).1 p) Attr.MTIME
            (intStr now2)).setAttr
            (find_inode (fs_write s false fast p [] 0 0 now1).1 p) Attr.DATA
            (b2.take b2.length) := rfl
    apply read_full
    · rw [find_inode_write, find_inode_write]; exact h
    · rw [find_inode_write, find_inode_write, hw2]
      simp [Store.setAttr, find_inode_write]
    · rw [find_inode_write, find_inode_write, hw2]
      simp [Store.setAttr, find_inode_write]
  · have hw2e : (fs_write (fs_write s false fast p b1 b1.length 0 now1).1
        false fast p b2 b2.length b1.length now2).1
        = (if fast
            then ((fs_write s false fast p b1 b1.length 0 now1).1.incrby
              (find_inode (fs_write s false fast p b1 b1.length 0 now1).1 p)
              Attr.SIZE (b2.length : Int)).appendAttr
              (find_inode (fs_write s false fast p b1 b1.length 0 now1).1 p)
              Attr.DATA (b2.take b2.length)
            else (((fs_write s false fast p b1 b1.length 0 now1).1.incrby
              (find_inode (fs_write s false fast p b1 b1.length 0 now1).1 p)
              Attr.SIZE (b2.length : Int)).appendAttr
              (find_inode (fs_write s false fast p b1 b1.length 0 now1).1 p)
              Attr.DATA (b2.take b2.length)).setAttr
              (find_inode (fs_write s false fast p b1 b1.length 0 now1).1 p)
              Attr.MTIME (intStr now2)) := by
      simp only [fs_write, Bool.false_eq_true, if_false, if_neg hb1]
    have hincr : (fs_write s false fast p b1 b1.length 0 now1).1.incrby
        (find_inode (fs_write s false fast p b1 b1.length 0 now1).1 p)
        Attr.SIZE (b2.length : Int)
        = (fs_write s false fast p b1 b1.length 0 now1).1.setAttr
          (find_inode s p) Attr.SIZE
          (intStr ((b1.length : Int) + (b2.length : Int))) := by
      rw [hr1, Store.incrby, hS1]
      simp only [Option.getD_some, parseInt_intStr]
    have happ : ((fs_write s false fast p b1 b1.length 0 now1).1.incrby
        (find_inode (fs_write s false fast p b1 b1.length 0 now1).1 p)
        Attr.SIZE (b2.length : Int)).appendAttr
        (find_inode (fs_write s false fast p b1 b1.length 0 now1).1 p)
        Attr.DATA (b2.take b2.length)
        = ((fs_write s false fast p b1 b1.length 0 now1).1.setAttr
            (find_inode s p) Attr.SIZE
            (intStr ((b1.length : Int) + (b2.length : Int)))).setAttr
          (find_inode s p) Attr.DATA (b1 ++ b2) := by
      rw [hincr, hr1, Store.appendAttr]
      have hval : (((fs_write s false fast p b1 b1.length 0 now1).1.setAttr
          (find_inode s p) Attr.SIZE
          (intStr ((b1.length : Int) + (b2.length : Int)))).attrs
          (find_inode s p) Attr.DATA).getD [] ++ b2.take b2.length = b1 ++ b2 := by
        simp [Store.setAttr, hD1]
      rw [hval]
    rw [show b1.length + b2.length = (b1 ++ b2).length from
      (List.length_append b1 b2).symm]
    apply read_full
    · rw [find_inode_write, find_inode_write]; exact h
    · rw [find_inode_write, find_inode_write, hw2e]
      cases fast with
      | true =>
        rw [if_pos rfl, happ]
        simp [Store.setAttr, List.length_append]
      | false =>
        rw [if_neg Bool.false_ne_true, happ]
        simp [Store.setAttr, List.length_append]
    · rw [find_inode_write, find_inode_write, hw2e]
      cases fast with
      | true =>
        rw [if_pos rfl, happ]
        simp [Store.setAttr]
      | false =>
        rw [if_neg Bool.false_ne_true, happ]
        simp [Store.setAttr]

/-- C5 witness: on a store holding the file `/f` (created from the empty
store), writing `"a"` at offset 0 then `"bc"` at offset 1 and reading 3
bytes back yields `"abc"` with return value 3. -/
theorem write_write_read_concat_witness :
    fs_read (fs_write (fs_write (fs_create emptyStore false ⟨0, 0⟩ ['/', 'f'] 420 true 5).1
        false false ['/', 'f'] ['a'] 1 0 6).1
        false false ['/', 'f'] ['b', 'c'] 2 1 7).1 ['/', 'f'] 3 0
      = (['a', 'b', 'c'], 3) :=
  write_write_read_concat (fs_create emptyStore false ⟨0, 0⟩ ['/', 'f'] 420 true 5).1
    false ['/', 'f'] ['a'] ['b', 'c'] 6 7 (by decide)

/-! ### Claim C6: SIZE tracks the DATA length -/

/-- The invariant of spec §3.2(5) for one inode: the SIZE attribute holds
the decimal byte length of the DATA attribute, an absent DATA counting as
length 0. -/
def sizeInv (s : Store) (i : Int) : Prop :=
  s.attrs i Attr.SIZE = some (intStr (((s.attrs i Attr.DATA).getD []).length : Int))

theorem sizeInv_frame {s t : Store} (j : Int)
    (hS : t.attrs j Attr.SIZE = s.attrs j Attr.SIZE)
    (hD : t.attrs j Attr.DATA = s.attrs j Attr.DATA) :
    sizeInv s j → sizeInv t j := by
  intro h
  rw [sizeInv, hS, hD]
  exact h

theorem attrs_incrby_ne (s : Store) (i : Int) (a : Attr) (delta : Int) (j : Int)
    (b : Attr) (hj : ¬(j = i ∧ b = a)) :
    (s.incrby i a delta).attrs j b = s.attrs j b := by
  rw [Store.incrby]
  split
  · rw [Store.setAttr, attrs_updAttr, if_neg hj]
  · rfl

/-- C6: the invariant "SIZE equals the byte length of DATA (absent DATA
counting as 0)" is established and preserved as the claim describes:
`create` establishes SIZE=0 with no DATA key (granted the allocated inode
carries no stale DATA), an offset-0 `write` sets SIZE to the length of the
data it stores, a non-zero-offset `write` INCRBYs SIZE by exactly the
number of bytes it APPENDs to DATA, and `truncate` deletes DATA while
resetting SIZE to 0; in each case the invariant is untouched at every other
inode. -/
theorem size_data_invariant :
    (∀ (s : Store) (ctx : Ctx) (path : Str) (mode : Nat) (now : Int),
      s.attrs (s.counter + 1) Attr.DATA = none →
        sizeInv (fs_create s false ctx path mode true now).1 (s.counter + 1)
        ∧ ∀ j, sizeInv s j → sizeInv (fs_create s false ctx path mode true now).1 j)
    ∧ (∀ (s : Store) (fast : Bool) (path buf : Str) (size : Nat) (now : Int),
        size ≤ buf.length →
          sizeInv (fs_write s false fast path buf size 0 now).1 (find_inode s path)
          ∧ ∀ j, sizeInv s j → sizeInv (fs_write s false fast path buf size 0 now).1 j)
    ∧ (∀ (s : Store) (fast : Bool) (path buf : Str) (size off : Nat) (now : Int),
        size ≤ buf.length → off ≠ 0 →
          ∀ j, sizeInv s j → sizeInv (fs_write s false fast path buf size off now).1 j)
    ∧ (∀ (s : Store) (path : Str) (reqSize now : Int),
        is_directory s path = 0 →
          sizeInv (fs_truncate s false path reqSize now).1 (find_inode s path)
          ∧ ∀ j, sizeInv s j → sizeInv (fs_truncate s false path reqSize now).1 j) := by
  refine ⟨?_, ?_, ?_, ?_⟩
  · -- create
    intro s ctx path mode now hfresh
    have hce : (fs_create s false ctx path mode true now).1
        = (((((((((((({ s with counter := s.counter + 1 } : Store).sadd
          (find_inode s (cParent path)) (s.counter + 1)).setAttr (s.counter + 1)
          Attr.NAME (get_basename path)).setAttr (s.counter + 1) Attr.TYPE
          tFILE).setAttr (s.counter + 1) Attr.MODE (intStr mode)).setAttr (s.counter + 1)
          Attr.UID (intStr ctx.uid)).setAttr (s.counter + 1) Attr.GID
          (intStr ctx.gid)).setAttr (s.counter + 1) Attr.SIZE (intStr 0)).setAttr
          (s.counter + 1) Attr.CTIME (intStr now)).setAttr (s.counter + 1) Attr.MTIME
          (intStr now)).setAttr (s.counter + 1) Attr.ATIME (intStr now)).setAttr
          (s.counter + 1) Attr.LINK (intStr 1)) := rfl
    have hest : sizeInv (fs_create s false ctx path mode true now).1 (s.counter + 1) := by
      rw [sizeInv, hce]
      simp [Store.setAttr, hfresh]
    refine ⟨hest, ?_⟩
    intro j hj
    by_cases hk : j = s.counter + 1
    · rw [hk]; exact hest
    · refine sizeInv_frame j ?_ ?_ hj <;>
        (rw [hce]; simp [Store.setAttr, hk])
  · -- write, offset 0
    intro s fast path buf size now hsz
    have hw : (fs_write s false fast path buf size 0 now).1
        = ((s.setAttr (find_inode s path) Attr.SIZE (intStr (size : Int))).setAttr
            (find_inode s path) Attr.MTIME (intStr now)).setAttr
            (find_inode s path) Attr.DATA (buf.take size) := rfl
    have hest : sizeInv (fs_write s false fast path buf size 0 now).1
        (find_inode s path) := by
      rw [sizeInv, hw]
      simp [Store.setAttr, List.length_take, Nat.min_eq_left hsz]
    refine ⟨hest, ?_⟩
    intro j hj
    by_cases hk : j = find_inode s path
    · rw [hk]; exact hest
    · refine sizeInv_frame j ?_ ?_ hj <;>
        (rw [hw]; simp [Store.setAttr, hk])
  · -- write, non-zero offset
    intro s fast path buf size off now hsz hoff j hj
    have hwe : (fs_write s false fast path buf size off now).1
        = (if fast
            then (s.incrby (find_inode s path) Attr.SIZE (size : Int)).appendAttr
              (find_inode s path) Attr.DATA (buf.take size)
            else ((s.incrby (find_inode s path) Attr.SIZE (size : Int)).appendAttr
              (find_inode s path) Attr.DATA (buf.take size)).setAttr
              (find_inode s path) Attr.MTIME (intStr now)) := by
      simp only [fs_write, Bool.false_eq_true, if_false, if_neg hoff]
    by_cases hk : j = find_inode s path
    · -- the written inode: INCRBY parses the invariant's SIZE and the APPEND
      -- extends DATA by the same count
      rw [sizeInv] at hj
      have hincr : s.incrby j Attr.SIZE (size : Int)
          = s.setAttr j Attr.SIZE
            (intStr ((((s.attrs j Attr.DATA).getD []).length : Int) + (size : Int))) := by
        rw [Store.incrby, hj]
        simp only [Option.getD_some, parseInt_intStr]
      have happ : (s.incrby j Attr.SIZE (size : Int)).appendAttr j Attr.DATA
          (buf.take size)
          = (s.setAttr j Attr.SIZE
              (intStr ((((s.attrs j Attr.DATA).getD []).length : Int) + (size : Int)))).setAttr
            j Attr.DATA ((s.attrs j Attr.DATA).getD [] ++ buf.take size) := by
        rw [hincr, Store.appendAttr]
        have hd : ((s.setAttr j Attr.SIZE
            (intStr ((((s.attrs j Attr.DATA).getD []).length : Int) + (size : Int)))).attrs
            j Attr.DATA).getD [] = (s.attrs j Attr.DATA).getD [] := by
          simp [Store.setAttr]
        rw [hd]
      have hlen : (((s.attrs j Attr.DATA).getD [] ++ buf.take size).length : Int)
          = (((s.attrs j Attr.DATA).getD []).length : Int) + (size : Int) := by
        simp [List.length_take, Nat.min_eq_left hsz]
      rw [sizeInv, hwe, ← hk]
      cases fast with
      | true =>
        rw [if_pos rfl, happ]
        simp [Store.setAttr, hlen]
        congr 1
        omega
      | false =>
        rw [if_neg Bool.false_ne_true, happ]
        simp [Store.setAttr, hlen]
        congr 1
        omega
    · -- any other inode is untouched
      refine sizeInv_frame j ?_ ?_ hj <;>
        (rw [hwe]
         cases fast with
         | true =>
           rw [if_pos rfl]
           simp [Store.appendAttr, Store.setAttr, attrs_incrby_ne, hk]
         | false =>
           rw [if_neg Bool.false_ne_true]
           simp [Store.appendAttr, Store.setAttr, attrs_incrby_ne, hk])
  · -- truncate
    intro s path reqSize now hdir
    have hne : find_inode s path ≠ -1 := by
      intro hc
      simp [is_directory, hc] at hdir
    have hte : (fs_truncate s false path reqSize now).1
        = (((s.delAttr (find_inode s path) Attr.DATA).setAttr (find_inode s path)
            Attr.SIZE (intStr 0)).setAttr (find_inode s path) Attr.MTIME
            (intStr now)) := by
      show (if is_directory s path ≠ 0 then (s, -ENOENT)
        else if find_inode s path = -1 then (s, -ENOENT)
        else (((s.delAttr (find_inode s path) Attr.DATA).setAttr (find_inode s path)
          Attr.SIZE (intStr 0)).setAttr (find_inode s path) Attr.MTIME
          (intStr now), 0)).1 = _
      rw [if_neg (by rw [hdir]; exact fun hc => hc rfl), if_neg hne]
    have hest : sizeInv (fs_truncate s false path reqSize now).1
        (find_inode s path) := by
      rw [sizeInv, hte]
      simp [Store.setAttr, Store.delAttr]
    refine ⟨hest, ?_⟩
    intro j hj
    by_cases hk : j = find_inode s path
    · rw [hk]; exact hest
    · refine sizeInv_frame j ?_ ?_ hj <;>
        (rw [hte]; simp [Store.setAttr, Store.delAttr, hk])

/-- C6 witness: the invariant chained through a concrete run -- create `/f`
(inode 1), write `"a"` at offset 0, append `"b"` at offset 1, truncate --
each step justified by the invariant theorem with its hypotheses checked on
the concrete store. -/
theorem size_data_invariant_witness :
    sizeInv (fs_create emptyStore false ⟨0, 0⟩ ['/', 'f'] 420 true 5).1 1
    ∧ sizeInv (fs_write (fs_create emptyStore false ⟨0, 0⟩ ['/', 'f'] 420 true 5).1
        false false ['/', 'f'] ['a'] 1 0 6).1 1
    ∧ sizeInv (fs_write (fs_write (fs_create emptyStore false ⟨0, 0⟩ ['/', 'f'] 420 true 5).1
        false false ['/', 'f'] ['a'] 1 0 6).1 false false ['/', 'f'] ['b'] 1 1 7).1 1
    ∧ sizeInv (fs_truncate (fs_write (fs_write
        (fs_create emptyStore false ⟨0, 0⟩ ['/', 'f'] 420 true 5).1
        false false ['/', 'f'] ['a'] 1 0 6).1 false false ['/', 'f'] ['b'] 1 1 7).1
        false ['/', 'f'] 0 8).1 1 := by
  have h1 : sizeInv (fs_create emptyStore false ⟨0, 0⟩ ['/', 'f'] 420 true 5).1 1 :=
    (size_data_invariant.1 emptyStore ⟨0, 0⟩ ['/', 'f'] 420 5 (by decide)).1
  have h2 : sizeInv (fs_write (fs_create emptyStore false ⟨0, 0⟩ ['/', 'f'] 420 true 5).1
      false false ['/', 'f'] ['a'] 1 0 6).1 1 :=
    (size_data_invariant.2.1 (fs_create emptyStore false ⟨0, 0⟩ ['/', 'f'] 420 true 5).1
      false ['/', 'f'] ['a'] 1 6 (by decide)).1
  have h3 : sizeInv (fs_write (fs_write
      (fs_create emptyStore false ⟨0, 0⟩ ['/', 'f'] 420 true 5).1
      false false ['/', 'f'] ['a'] 1 0 6).1 false false ['/', 'f'] ['b'] 1 1 7).1 1 :=
    size_data_invariant.2.2.1 (fs_write
      (fs_create emptyStore false ⟨0, 0⟩ ['/', 'f'] 420 true 5).1
      false false ['/', 'f'] ['a'] 1 0 6).1 false ['/', 'f'] ['b'] 1 1 7
      (by decide) (by decide) 1 h2
  have h4 : sizeInv (fs_truncate (fs_write (fs_write
      (fs_create emptyStore false ⟨0, 0⟩ ['/', 'f'] 420 true 5).1
      false false ['/', 'f'] ['a'] 1 0 6).1 false false ['/', 'f'] ['b'] 1 1 7).1
      false ['/', 'f'] 0 8).1 1 :=
    (size_data_invariant.2.2.2 (fs_write (fs_write
      (fs_create emptyStore false ⟨0, 0⟩ ['/', 'f'] 420 true 5).1
      false false ['/', 'f'] ['a'] 1 0 6).1 false false ['/', 'f'] ['b'] 1 1 7).1
      ['/', 'f'] 0 8 (by decide)).1
  exact ⟨h1, h2, h3, h4⟩
